import Mathlib

/-!
Verification of the daily-puzzle game's Adaptive Puzzle & Analytics Engine.

The JavaScript source is embedded shallowly:

* The seeded derivation `sr(seedString) = parseInt(SHA256(seedString).toString().substring(0,8), 16)`
  applies a fixed external hash library (crypto-js). The hash itself is not
  repository code, so every generator definition is parameterised over an
  abstract hash function `h : String → ℕ` standing for `sr`; the theorems
  quantify over all such functions.
* JavaScript numbers are modelled as `Int` (all generator arithmetic is exact
  integer arithmetic), averages as `ℚ`, and `Math.round x` as Mathlib's
  `round : ℚ → ℤ` (both are `⌊x + 1/2⌋`).
* `a ?? b` (nullish coalescing) on a possibly-absent field is modelled with
  `Option` and `Option.getD`.
* `Array.prototype.sort` with a numeric comparator is stable (ES2019), so a
  seeded comparator sort is modelled by the stable `List.insertionSort` on the
  comparator's key: both produce the unique stable ascending ordering.
* Calendar dates handled by dayjs are modelled as integers counting days, so
  `dayjs(a).diff(dayjs(b), "day") = a - b` and `subtract(1, "day")` is `- 1`.
-/

/- ═══════════════ puzzleGenerator.js (src/unnamed/part_011) ═══════════════ -/

/-- `srRange(seed, min, max) = min + (sr(seed) % (max - min + 1))`.
`sr` returns a non-negative integer, so the JS `%` agrees with `Int.emod`. -/
def srRange (h : String → ℕ) (seed : String) (lo hi : ℤ) : ℤ :=
  lo + (h seed : ℤ) % (hi - lo + 1)

/-- Result record of the per-family sequence generators. -/
structure GenResult where
  sequence : List ℤ
  answer : ℤ
  hint : String
  deriving DecidableEq

/-- `patterns[difficulty]` lookup table of `pickSequencePattern`;
an unknown difficulty key yields `undefined` (`none`). -/
def seqPatternTable (difficulty : String) : Option (List String) :=
  if difficulty = "easy" then some ["arithmetic", "geometric"]
  else if difficulty = "medium" then some ["squares", "fibonacci"]
  else if difficulty = "hard" then some ["alternating", "polynomial"]
  else none

/-- `pickSequencePattern`: `sr(date+"seqpattern") % 2` selects between the two
candidates of the tier; `patterns[difficulty]?.[pick] ?? "arithmetic"`. -/
def pickSequencePattern (h : String → ℕ) (date difficulty : String) : String :=
  (((seqPatternTable difficulty).bind fun ps => ps[h (date ++ "seqpattern") % 2]?).getD
    "arithmetic")

/-- Parameter ranges of `genArithmetic`; `ranges[difficulty] ?? ranges.easy`. -/
def arithRanges (difficulty : String) : ℤ × ℤ × ℤ × ℤ :=
  if difficulty = "easy" then (1, 10, 2, 6)
  else if difficulty = "medium" then (5, 30, 4, 12)
  else if difficulty = "hard" then (10, 50, 7, 20)
  else (1, 10, 2, 6)

/-- `genArithmetic(date, difficulty)`: 5 terms `base + i*step`, answer at i=5. -/
def genArithmetic (h : String → ℕ) (date difficulty : String) : GenResult :=
  let r := arithRanges difficulty
  let base := srRange h (date ++ "arith_base") r.1 r.2.1
  let step := srRange h (date ++ "arith_step") r.2.2.1 r.2.2.2
  { sequence := (List.range 5).map fun i => base + (i : ℤ) * step
    answer := base + 5 * step
    hint := "Arithmetic sequence (+" ++ toString step ++ " each term)" }

/-- Parameter ranges of `genGeometric`; `ranges[difficulty] ?? ranges.easy`. -/
def geoRanges (difficulty : String) : ℤ × ℤ × ℤ × ℤ :=
  if difficulty = "easy" then (1, 4, 2, 3)
  else if difficulty = "medium" then (1, 5, 2, 4)
  else if difficulty = "hard" then (2, 6, 3, 5)
  else (1, 4, 2, 3)

/-- `genGeometric(date, difficulty)`: 5 terms `base * ratio^i`, answer at i=5. -/
def genGeometric (h : String → ℕ) (date difficulty : String) : GenResult :=
  let r := geoRanges difficulty
  let base := srRange h (date ++ "geo_base") r.1 r.2.1
  let ratioVal := srRange h (date ++ "geo_ratio") r.2.2.1 r.2.2.2
  { sequence := (List.range 5).map fun i => base * ratioVal ^ i
    answer := base * ratioVal ^ 5
    hint := "Geometric sequence (x" ++ toString ratioVal ++ " each term)" }

/-- `genSquares(date)`: 5 terms `(startN + i)^2`, answer `(startN + 5)^2`. -/
def genSquares (h : String → ℕ) (date : String) : GenResult :=
  let startN := srRange h (date ++ "sq_start") 1 8
  { sequence := (List.range 5).map fun i => (startN + (i : ℤ)) ^ 2
    answer := (startN + 5) ^ 2
    hint := "Perfect squares starting from " ++ toString startN ++ "^2" }

/-- `genFibonacci(date)`: the 2-seeded additive recurrence, unrolled as in the
source's fixed-length loop; answer `terms[3] + terms[4]`. -/
def genFibonacci (h : String → ℕ) (date : String) : GenResult :=
  let a0 := srRange h (date ++ "fib_a0") 1 5
  let a1 := srRange h (date ++ "fib_a1") 2 8
  let t2 := a1 + a0
  let t3 := t2 + a1
  let t4 := t3 + t2
  { sequence := [a0, a1, t2, t3, t4]
    answer := t3 + t4
    hint := "Each term = sum of previous two (Fibonacci-style)" }

/-- `genAlternating(date)`: 5 terms `(-1)^i * base * ratio^i`, answer at i=5. -/
def genAlternating (h : String → ℕ) (date : String) : GenResult :=
  let base := srRange h (date ++ "alt_base") 2 5
  let ratioVal := srRange h (date ++ "alt_ratio") 2 3
  { sequence := (List.range 5).map fun i => (-1) ^ i * base * ratioVal ^ i
    answer := (-1) ^ 5 * base * ratioVal ^ 5
    hint := "Alternating signs, geometric growth (x" ++ toString ratioVal ++ ")" }

/-- `genPolynomial(date)`: 5 terms `a + b*(i+1) + c*(i+1)^2`, answer at n=6. -/
def genPolynomial (h : String → ℕ) (date : String) : GenResult :=
  let a := srRange h (date ++ "poly_a") 1 5
  let b := srRange h (date ++ "poly_b") 1 4
  let c := srRange h (date ++ "poly_c") 1 3
  { sequence := (List.range 5).map fun i => a + b * ((i : ℤ) + 1) + c * ((i : ℤ) + 1) ^ 2
    answer := a + b * 6 + c * 36
    hint := "Quadratic sequence (a + b*n + c*n^2)" }

/-- The puzzle object returned by `generateSequencePuzzle`. -/
structure SeqPuzzle where
  type : String
  sequence : List ℤ
  answer : ℤ
  hint : String
  patternKey : String
  difficulty : String
  date : String
  deriving DecidableEq

/-- `generateSequencePuzzle(date, difficulty)`: pick the pattern, dispatch on it
(`switch` with `default` falling to `genArithmetic`), assemble the puzzle. -/
def generateSequencePuzzle (h : String → ℕ) (date difficulty : String) : SeqPuzzle :=
  let pattern := pickSequencePattern h date difficulty
  let result :=
    if pattern = "geometric" then genGeometric h date difficulty
    else if pattern = "squares" then genSquares h date
    else if pattern = "fibonacci" then genFibonacci h date
    else if pattern = "alternating" then genAlternating h date
    else if pattern = "polynomial" then genPolynomial h date
    else genArithmetic h date difficulty
  { type := "sequence"
    sequence := result.sequence
    answer := result.answer
    hint := result.hint
    patternKey := pattern
    difficulty := difficulty
    date := date }

/- ─── Matrix generation ─── -/

/-- `patterns[difficulty] ?? ["arithmetic"]` of `pickMatrixPattern`. -/
def matPatternTable (difficulty : String) : List String :=
  if difficulty = "easy" then ["arithmetic"]
  else if difficulty = "medium" then ["arithmetic", "multiplication"]
  else if difficulty = "hard" then ["multiplication", "polynomial"]
  else ["arithmetic"]

/-- `pickMatrixPattern`: index `sr(date+"matpattern") % opts.length`. -/
def pickMatrixPattern (h : String → ℕ) (date difficulty : String) : String :=
  let opts := matPatternTable difficulty
  opts.getD (h (date ++ "matpattern") % opts.length) "arithmetic"

/-- Result record of the grid builders. -/
structure GridResult where
  grid : List ℤ
  hint : String
  ruleKey : String
  deriving DecidableEq

/-- Row-major 4×4 grid built by the source's nested `for r / for c` loops. -/
def buildGrid16 (cell : ℕ → ℕ → ℤ) : List ℤ :=
  (List.range 16).map fun i => cell (i / 4) (i % 4)

/-- `buildArithmeticGrid(date)`: `cell(r,c) = base + r*rowStep + c*colStep`. -/
def buildArithmeticGrid (h : String → ℕ) (date : String) : GridResult :=
  let base := srRange h (date ++ "mat_base") 2 10
  let rowStep := srRange h (date ++ "mat_rowstep") 2 8
  let colStep := srRange h (date ++ "mat_colstep") 1 6
  { grid := buildGrid16 fun r c => base + (r : ℤ) * rowStep + (c : ℤ) * colStep
    hint := "Row increases by " ++ toString rowStep ++ ", column increases by " ++
      toString colStep
    ruleKey := "arithmetic" }

/-- `buildMultiplicationGrid(date)`: `cell(r,c) = (r+rBase) * (c+cBase)`. -/
def buildMultiplicationGrid (h : String → ℕ) (date : String) : GridResult :=
  let rBase := srRange h (date ++ "mul_rbase") 1 5
  let cBase := srRange h (date ++ "mul_cbase") 1 5
  { grid := buildGrid16 fun r c => ((r : ℤ) + rBase) * ((c : ℤ) + cBase)
    hint := "Multiplication table: row factor " ++ toString rBase ++ "-" ++
      toString (rBase + 3) ++ ", column factor " ++ toString cBase ++ "-" ++
      toString (cBase + 3)
    ruleKey := "multiplication" }

/-- `buildPolynomialGrid(date)`: `cell(r,c) = base + r*rs + c*cs + r*c*ms`. -/
def buildPolynomialGrid (h : String → ℕ) (date : String) : GridResult :=
  let base := srRange h (date ++ "poly_base") 1 5
  let rowStep := srRange h (date ++ "poly_rs") 2 5
  let colStep := srRange h (date ++ "poly_cs") 1 4
  let mixStep := srRange h (date ++ "poly_mix") 1 3
  { grid := buildGrid16 fun r c =>
      base + (r : ℤ) * rowStep + (c : ℤ) * colStep + (r : ℤ) * (c : ℤ) * mixStep
    hint := "Each cell = base + row*" ++ toString rowStep ++ " + col*" ++
      toString colStep ++ " + row*col*" ++ toString mixStep
    ruleKey := "polynomial" }

/- ─── blankCells ─── -/

/-- The seeded key `sr(date + "blank" + idx)` used by the comparator. -/
def blankKey (h : String → ℕ) (date : String) (i : ℕ) : ℕ :=
  h (date ++ "blank" ++ toString i)

/-- `visibleInRow`: cells of `idx`'s row other than `idx` not yet blanked,
counted by filtering the 16 grid indices (the source filters `indices`, a
permutation of `0..15`, and only takes the length, so the count is the same). -/
def visibleInRow (blanked : List ℕ) (idx : ℕ) : ℕ :=
  ((List.range 16).filter fun i => i / 4 = idx / 4 ∧ i ≠ idx ∧ i ∉ blanked).length

/-- `visibleInCol`: same for `idx`'s column. -/
def visibleInCol (blanked : List ℕ) (idx : ℕ) : ℕ :=
  ((List.range 16).filter fun i => i % 4 = idx % 4 ∧ i ≠ idx ∧ i ∉ blanked).length

/-- One iteration of the candidate loop in `blankCells`: stop when `count`
cells are blanked; otherwise blank `idx` only if both visibility checks pass.
`blanked` is a JS `Set`, so adding is membership-deduplicating. -/
def blankStep (count : ℕ) (blanked : List ℕ) (idx : ℕ) : List ℕ :=
  if count ≤ blanked.length then blanked
  else if 2 ≤ visibleInRow blanked idx ∧ 2 ≤ visibleInCol blanked idx then
    (if idx ∈ blanked then blanked else idx :: blanked)
  else blanked

/-- The seeded candidate order: indices `0..15` sorted ascending and stably by
`sr(date + "blank" + idx)` (JS `Array.sort` with a numeric comparator). -/
def shuffledIndices (h : String → ℕ) (date : String) : List ℕ :=
  List.insertionSort (fun a b => blankKey h date a ≤ blankKey h date b) (List.range 16)

/-- Write `null` at the blanked indices of a copy of `flatGrid`.  JS index
assignment past the end extends the array (holes and `null` are both modelled
as `none`), so the result length is the larger of the grid length and the
largest blanked index plus one. -/
def applyBlanks (flatGrid : List ℤ) (blanked : List ℕ) : List (Option ℤ) :=
  (List.range (max flatGrid.length
    (blanked.foldr (fun i m => max (i + 1) m) 0))).map
    fun i => if i ∈ blanked then none else flatGrid[i]?

/-- `blankCells(flatGrid, count, date)`. -/
def blankCells (h : String → ℕ) (flatGrid : List ℤ) (count : ℕ) (date : String) :
    List (Option ℤ) :=
  applyBlanks flatGrid ((shuffledIndices h date).foldl (blankStep count) [])

/-- The puzzle object returned by `generateMatrixPuzzle`. -/
structure MatPuzzle where
  type : String
  grid : List (Option ℤ)
  solution : List ℤ
  hint : String
  patternKey : String
  difficulty : String
  date : String
  deriving DecidableEq

/-- `{ easy: 3, medium: 5, hard: 7 }[difficulty] ?? 3`. -/
def blankCountFor (difficulty : String) : ℕ :=
  if difficulty = "easy" then 3
  else if difficulty = "medium" then 5
  else if difficulty = "hard" then 7
  else 3

/-- `generateMatrixPuzzle(date, difficulty)`. -/
def generateMatrixPuzzle (h : String → ℕ) (date difficulty : String) : MatPuzzle :=
  let pattern := pickMatrixPattern h date difficulty
  let built :=
    if pattern = "multiplication" then buildMultiplicationGrid h date
    else if pattern = "polynomial" then buildPolynomialGrid h date
    else buildArithmeticGrid h date
  { type := "matrix"
    grid := blankCells h built.grid (blankCountFor difficulty) date
    solution := built.grid
    hint := built.hint
    patternKey := built.ruleKey
    difficulty := difficulty
    date := date }

/-- Number of `null` cells in a puzzle grid. -/
def countBlanksOut (g : List (Option ℤ)) : ℕ :=
  (g.filter fun c => c = none).length

/-- Visible (non-null) cells in the row of `i`, other than `i`, in the
final output grid. -/
def visibleInRowOut (g : List (Option ℤ)) (i : ℕ) : ℕ :=
  ((List.range 16).filter fun j => j / 4 = i / 4 ∧ j ≠ i ∧ g.getD j none ≠ none).length

/-- Visible (non-null) cells in the column of `i`, other than `i`, in the
final output grid. -/
def visibleInColOut (g : List (Option ℤ)) (i : ℕ) : ℕ :=
  ((List.range 16).filter fun j => j % 4 = i % 4 ∧ j ≠ i ∧ g.getD j none ≠ none).length

/-- A concrete hash instance used to exhibit concrete runs (any function
`String → ℕ` is a possible seeded derivation in the abstract model). -/
def h0 : String → ℕ := fun _ => 0

/- ═══════════════ Difficultyengine.js (src/src/utils) ═══════════════ -/

/-- An activity record as the analytics engines see it.  Fields the JS code
reads through `??` (they may be absent on old records) are `Option`s. -/
structure ActivityRec where
  date : String
  solved : Bool
  attempts : Option ℤ
  timeTaken : Option ℤ
  score : Option ℤ
  difficulty : Option String
  deriving DecidableEq

/-- `EXPECTED_SOLVE_TIME[difficulty] ?? 60`. -/
def expectedSolveTime (difficulty : String) : ℚ :=
  if difficulty = "easy" then 60
  else if difficulty = "medium" then 45
  else if difficulty = "hard" then 30
  else 60

/-- Count of solved records whose `difficulty ?? "easy"` equals `d`
(`counts[d]++` guarded by `counts[d] !== undefined` keeps only the three
tier buckets). -/
def diffCount (solved : List ActivityRec) (d : String) : ℕ :=
  (solved.filter fun a => a.difficulty.getD "easy" = d).length

/-- `getDominantDifficulty`: `Object.entries(counts)` lists the buckets in the
fixed order easy, medium, hard; the stable descending sort by count then puts
first the earliest bucket attaining the maximal count. -/
def getDominantDifficulty (solved : List ActivityRec) : String :=
  if solved.length = 0 then "easy"
  else if diffCount solved "medium" ≤ diffCount solved "easy" ∧
      diffCount solved "hard" ≤ diffCount solved "easy" then "easy"
  else if diffCount solved "hard" ≤ diffCount solved "medium" then "medium"
  else "hard"

/-- `avgTime` of `computeSpeedScore`: mean of `timeTaken ?? 60` over the
solved records. -/
def avgSolveTime (solved : List ActivityRec) : ℚ :=
  ((solved.map fun a => ((a.timeTaken.getD 60 : ℤ) : ℚ)).sum) / (solved.length : ℚ)

/-- `computeSpeedScore(solved, difficulty)`: 40 at or under the expected time,
0 at double the expected time or slower, rounded linear interpolation between,
20 when nothing is solved. -/
def computeSpeedScore (solved : List ActivityRec) (difficulty : String) : ℤ :=
  if solved.length = 0 then 20
  else if avgSolveTime solved ≤ expectedSolveTime difficulty then 40
  else if expectedSolveTime difficulty * 2 ≤ avgSolveTime solved then 0
  else round ((expectedSolveTime difficulty * 2 - avgSolveTime solved) /
    expectedSolveTime difficulty * 40)

/-- Component 1 of `getAdaptiveDifficulty`:
`Math.round((solved.length / recentWindow.length) * 40)`. -/
def solveRateScore (recentWindow : List ActivityRec) : ℤ :=
  round ((((recentWindow.filter fun a => a.solved).length : ℚ) /
    (recentWindow.length : ℚ)) * 40)

/-- Component 3 of `getAdaptiveDifficulty`: clean solves are those with
`(a.attempts ?? 1) <= 1`; score `Math.round((clean / solved) * 20)`, 0 when
nothing is solved. -/
def cleanSolveScore (recentWindow : List ActivityRec) : ℤ :=
  if 0 < (recentWindow.filter fun a => a.solved).length then
    round (((((recentWindow.filter fun a => a.solved).filter
        fun a => a.attempts.getD 1 ≤ 1).length : ℚ) /
      (((recentWindow.filter fun a => a.solved).length : ℚ))) * 20)
  else 0

/-- Component 2 as invoked by `getAdaptiveDifficulty`: the speed score of the
solved part of the window against the dominant difficulty. -/
def speedScoreOfWindow (recentWindow : List ActivityRec) : ℤ :=
  computeSpeedScore (recentWindow.filter fun a => a.solved)
    (getDominantDifficulty (recentWindow.filter fun a => a.solved))

/-- `performanceScore = solveRateScore + speedScore + cleanSolveScore` over a
non-empty window (the empty window takes the cold-start path, score 0). -/
def performanceScore (recentWindow : List ActivityRec) : ℤ :=
  if recentWindow = [] then 0
  else solveRateScore recentWindow + speedScoreOfWindow recentWindow +
    cleanSolveScore recentWindow

/- ═══════════════ hintEngine.js (src/unnamed/part_006) and
                   db.js (src/unnamed/part_004) ═══════════════ -/

/-- `getRecentSolvedActivities(n)`: the store snapshot `all` is
`getAllActivities()` output, i.e. sorted newest-first; filter the solved
records and take the first `n`. -/
def getRecentSolvedActivities (n : ℕ) (all : List ActivityRec) : List ActivityRec :=
  (all.filter fun a => a.solved).take n

/-- `computeHintBudget(difficulty)` over a store snapshot `all`
(newest-first): base from the tier table (`?? 1`), the accuracy bonus from
`getRecentSolvedActivities(7)`, the dates bonus from the same list's length
(`recent.map(a => a.date).sort()` preserves length), capped at 4. -/
def computeHintBudget (all : List ActivityRec) (difficulty : String) : ℕ :=
  let base : ℕ :=
    if difficulty = "easy" then 3
    else if difficulty = "medium" then 2
    else if difficulty = "hard" then 1
    else 1
  let recent := getRecentSolvedActivities 7 all
  let accuracy : ℚ :=
    if 0 < recent.length then
      ((recent.filter fun a => a.solved).length : ℚ) / (recent.length : ℚ)
    else 1
  let bonus : ℕ := (if accuracy < 1/2 then 1 else 0) + (if 7 ≤ recent.length then 1 else 0)
  min (base + bonus) 4

/-- Follows the claim's wording, for comparison with `computeHintBudget`:
base = \x7beasy: 3, medium: 2, hard: 1\x7d, plus 1 if the player's 7-day solve
accuracy (solved fraction of the last 7 activity records) is below 50%, plus 1
if the player has activity on at least 7 distinct recent dates, capped at 4. -/
def claimedHintBudget (all : List ActivityRec) (difficulty : String) : ℕ :=
  let base : ℕ :=
    if difficulty = "easy" then 3
    else if difficulty = "medium" then 2
    else if difficulty = "hard" then 1
    else 1
  let recent := all.take 7
  let accuracy : ℚ :=
    if 0 < recent.length then
      ((recent.filter fun a => a.solved).length : ℚ) / (recent.length : ℚ)
    else 1
  let bonus : ℕ := (if accuracy < 1/2 then 1 else 0) +
    (if 7 ≤ ((all.take 7).map fun a => a.date).dedup.length then 1 else 0)
  min (base + bonus) 4

/-- A fully-populated stored activity record (the shape `saveDailyActivity`
always writes). -/
structure Activity where
  date : String
  uid : String
  score : ℤ
  timeTaken : ℤ
  difficulty : String
  solved : Bool
  attempts : ℤ
  puzzleSeed : String
  synced : ℤ
  createdAt : ℤ
  deriving DecidableEq

/-- The partial activity passed to the upsert; absent fields are `none`. -/
structure PartialActivity where
  date : String
  uid : Option String
  score : Option ℤ
  timeTaken : Option ℤ
  difficulty : Option String
  solved : Option Bool
  attempts : Option ℤ
  puzzleSeed : Option String
  synced : Option ℤ
  createdAt : Option ℤ
  deriving DecidableEq

/-- `saveDailyActivity(activity)` given the record already stored under
`activity.date` (`existing`, possibly absent) and the current clock `now`
(`Date.now()`).  Throws (here: `none`) when `date` is not a non-empty string;
otherwise builds the normalized record with `??` fallbacks, coercing `synced`
by JS truthiness (a number is truthy iff non-zero) and taking `createdAt` from
the existing record first. -/
def saveDailyActivity (existing : Option Activity) (activity : PartialActivity)
    (now : ℤ) : Option Activity :=
  if activity.date = "" then none
  else some
    { date := activity.date
      uid := activity.uid.getD ((existing.map fun e => e.uid).getD "")
      score := activity.score.getD ((existing.map fun e => e.score).getD 0)
      timeTaken := activity.timeTaken.getD ((existing.map fun e => e.timeTaken).getD 0)
      difficulty := activity.difficulty.getD
        ((existing.map fun e => e.difficulty).getD "easy")
      solved := activity.solved.getD ((existing.map fun e => e.solved).getD false)
      attempts := activity.attempts.getD ((existing.map fun e => e.attempts).getD 1)
      puzzleSeed := activity.puzzleSeed.getD
        ((existing.map fun e => e.puzzleSeed).getD "")
      synced := if activity.synced.getD ((existing.map fun e => e.synced).getD 0) ≠ 0
        then 1 else 0
      createdAt := ((existing.map fun e => e.createdAt).getD
        (activity.createdAt.getD now)) }

/- ═══════════════ streakEngine.js (src/unnamed/part_009) and
                   retentionEngine.js (src/unnamed/part_008) ═══════════════ -/

/-- The backward walk of the current-streak loop: while the cursor day is in
the solved set, count it and step one day back.  The source's `while` loop
can run at most `solvedDates.length` iterations (each counted day is a
distinct member of the list), so that much fuel computes the exact count. -/
def walkBack (s : List ℤ) : ℤ → ℕ → ℕ
  | _, 0 => 0
  | cursor, fuel + 1 => if cursor ∈ s then walkBack s (cursor - 1) fuel + 1 else 0

/-- The forward longest-streak pass, after the first element has seeded
`run = 1, longest = 1`: `run = diff === 1 ? run + 1 : 1`, then
`longest = max longest run`. -/
def longestGo : ℤ → ℕ → ℕ → List ℤ → ℕ
  | _, _, longest, [] => longest
  | prev, run, longest, d :: rest =>
    longestGo d (if d - prev = 1 then run + 1 else 1)
      (max longest (if d - prev = 1 then run + 1 else 1)) rest

/-- The whole forward pass over the ascending date list. -/
def longestPass : List ℤ → ℕ
  | [] => 0
  | d :: rest => longestGo d 1 1 rest

/-- Streak pair with the field names of the JS result object. -/
structure Streaks where
  currentStreak : ℕ
  longestStreak : ℕ
  deriving DecidableEq

/-- `buildStreaks(solvedDates)` (retentionEngine.js), with `today` passed
explicitly in place of `dayjs()`; `solvedDates` is expected oldest-first.
`calculateStreaks` (streakEngine.js) inlines the identical two passes. -/
def buildStreaks (today : ℤ) (solvedDates : List ℤ) : Streaks :=
  if solvedDates = [] then { currentStreak := 0, longestStreak := 0 }
  else
    { currentStreak :=
        if today ∈ solvedDates then walkBack solvedDates today solvedDates.length
        else if today - 1 ∈ solvedDates then
          walkBack solvedDates (today - 1) solvedDates.length
        else 0
      longestStreak := longestPass solvedDates }

/-- `calculateStreaks()` (streakEngine.js): filter the solved records of the
store snapshot, keep their dates, sort ascending, then run the two passes
(identical to `buildStreaks`).  A record is a `(date, solved)` pair here. -/
def calculateStreaks (today : ℤ) (activities : List (ℤ × Bool)) : Streaks :=
  buildStreaks today
    (List.insertionSort (· ≤ ·) ((activities.filter fun a => a.2).map fun a => a.1))

/- ═══════════════ insightsEngine.js (src/unnamed/part_010) ═══════════════ -/

/-- `rollingAverage(values, window)`: `null` while the window is not yet full,
then `Math.round` of the trailing-window sum divided by `window`
(`values.slice(i - window + 1, i + 1)` is `drop (i + 1 - window), take window`). -/
def rollingAverage (values : List ℤ) (window : ℕ) : List (Option ℤ) :=
  (List.range values.length).map fun i =>
    if i < window - 1 then none
    else some (round
      (((((values.drop (i + 1 - window)).take window).map fun v => (v : ℚ)).sum) /
        (window : ℚ)))

/- ═══════════════ Auxiliary definitions for the verification ═══════════════ -/

/-- Invariant maintained by the candidate loop of `blankCells`: never more
than `count` blanks, no duplicates, only grid indices, and every row and
every column keeps at least 2 visible cells. -/
def BlankInv (count : ℕ) (b : List ℕ) : Prop :=
  b.length ≤ count ∧ b.Nodup ∧ (∀ i ∈ b, i < 16) ∧
  (∀ r < 4, 2 ≤ ((List.range 16).filter fun j => j / 4 = r ∧ j ∉ b).length) ∧
  (∀ c < 4, 2 ≤ ((List.range 16).filter fun j => j % 4 = c ∧ j ∉ b).length)

/-- `k` consecutive calendar days starting at `a` all carry a solved record. -/
def blockIn (s : List ℤ) (a : ℤ) (k : ℕ) : Prop :=
  ∀ j < k, a + (j : ℤ) ∈ s

/-- A sample activity record builder for concrete runs. -/
def mkRec (d : String) (s : Bool) : ActivityRec :=
  { date := d, solved := s, attempts := some 1, timeTaken := some 30,
    score := some 80, difficulty := some "easy" }

/-- A store snapshot (newest-first) with activity on 7 distinct dates, of
which only the 3 most recent are solved. -/
def c4Store : List ActivityRec :=
  [mkRec "2024-01-07" true, mkRec "2024-01-06" true, mkRec "2024-01-05" true,
   mkRec "2024-01-04" false, mkRec "2024-01-03" false, mkRec "2024-01-02" false,
   mkRec "2024-01-01" false]

/-- Ten chronological solved scores whose first trailing-7 sum is not
divisible by 7. -/
def c6Values : List ℤ := [1, 0, 0, 0, 0, 0, 0, 0, 0, 0]

/-- A stored record whose `createdAt` must survive later upserts. -/
def c8Existing : Activity :=
  { date := "2024-01-01", uid := "u1", score := 50, timeTaken := 30,
    difficulty := "easy", solved := true, attempts := 1,
    puzzleSeed := "2024-01-01", synced := 1, createdAt := 111 }

/-- A later upsert for the same date that supplies `synced = 7` (not 0/1) and
its own `createdAt`. -/
def c8Patch : PartialActivity :=
  { date := "2024-01-01", uid := none, score := some 90, timeTaken := some 12,
    difficulty := none, solved := some true, attempts := some 2,
    puzzleSeed := none, synced := some 7, createdAt := some 999 }

/-- A 16-cell concrete flat grid used to witness the frame property. -/
def c10Grid : List ℤ :=
  [10, 11, 12, 13, 20, 21, 22, 23, 30, 31, 32, 33, 40, 41, 42, 43]

/- ═══════════════ Helper lemmas ═══════════════ -/

theorem round_nonneg_of {x : ℚ} (hx : 0 ≤ x) : 0 ≤ round x := by
  rw [round_eq]
  exact Int.floor_nonneg.mpr (by linarith)

theorem round_le_int (n : ℤ) {x : ℚ} (hx : x ≤ (n : ℚ)) : round x ≤ n := by
  rw [round_eq]
  have h2 : ⌊(1 : ℚ) / 2⌋ = 0 := by
    rw [Int.floor_eq_zero_iff]; constructor <;> norm_num
  have hn : ⌊(1 : ℚ) / 2 + (n : ℚ)⌋ = ⌊(1 : ℚ) / 2⌋ + n := Int.floor_add_int (1 / 2) n
  have hf : ⌊x + 1 / 2⌋ ≤ ⌊(1 : ℚ) / 2 + (n : ℚ)⌋ := Int.floor_mono (by linarith)
  omega

/- ═══════════════ C2: generator determinism ═══════════════ -/

/-- C2.  Both generators are pure functions of the hash function and the
`(date, difficulty)` arguments: any two invocations agree, with no dependence
on call count, time of day, or external state (neither of which even occurs
in the embedded definitions). -/
theorem c2_generator_determinism (h1 h2 : String → ℕ) (date difficulty : String)
    (hh : ∀ s, h1 s = h2 s) :
    generateSequencePuzzle h1 date difficulty = generateSequencePuzzle h2 date difficulty ∧
    generateMatrixPuzzle h1 date difficulty = generateMatrixPuzzle h2 date difficulty := by
  have he : h1 = h2 := funext hh
  subst he
  exact ⟨rfl, rfl⟩

theorem c2_witness :
    generateSequencePuzzle h0 "2024-01-01" "easy" =
      generateSequencePuzzle h0 "2024-01-01" "easy" ∧
    generateMatrixPuzzle h0 "2024-01-01" "easy" =
      generateMatrixPuzzle h0 "2024-01-01" "easy" :=
  c2_generator_determinism h0 h0 "2024-01-01" "easy" (fun _ => rfl)

/- ═══════════════ C8: upsert invariants ═══════════════ -/

/-- C8.  A `saveDailyActivity` upsert onto an existing record writes the
existing record's `createdAt` unchanged, and the written `synced` field is
exactly 0 or 1 whatever `synced` value the input supplies. -/
theorem c8_upsert_invariants (e : Activity) (a : PartialActivity) (now : ℤ)
    (hd : a.date ≠ "") :
    (∀ r, saveDailyActivity (some e) a now = some r → r.createdAt = e.createdAt) ∧
    (∀ ex r, saveDailyActivity ex a now = some r → r.synced = 0 ∨ r.synced = 1) := by
  constructor
  · intro r hr
    unfold saveDailyActivity at hr
    rw [if_neg hd] at hr
    have hrec := Option.some.inj hr
    subst hrec
    rfl
  · intro ex r hr
    unfold saveDailyActivity at hr
    rw [if_neg hd] at hr
    have hrec := Option.some.inj hr
    subst hrec
    by_cases hs : (a.synced.getD ((ex.map fun e => e.synced).getD 0)) ≠ 0
    · right; simp [hs]
    · left; simp [hs]

theorem c8_witness :
    (∀ r, saveDailyActivity (some c8Existing) c8Patch 555 = some r →
      r.createdAt = c8Existing.createdAt) ∧
    (∀ ex r, saveDailyActivity ex c8Patch 555 = some r →
      r.synced = 0 ∨ r.synced = 1) :=
  c8_upsert_invariants c8Existing c8Patch 555 (by decide)

/- ═══════════════ C4: hint budget ═══════════════ -/

/-- C4 (code bug).  On a store with activity on 7 distinct dates of which only
the 3 newest are solved, the code returns budget 3 for easy: because
`computeHintBudget` samples only solved records, its measured accuracy is 1
and the documented "accuracy < 50%" bonus cannot fire, and its date count sees
3 < 7 records; the claimed rule (7-day accuracy 3/7 < 50% gives +1, activity
on 7 distinct dates gives +1) yields 4. -/
theorem c4_hint_budget_dead_accuracy_bonus :
    computeHintBudget c4Store "easy" = 3 ∧ claimedHintBudget c4Store "easy" = 4 := by
  constructor
  · unfold computeHintBudget getRecentSolvedActivities c4Store mkRec
    norm_num
  · unfold claimedHintBudget c4Store mkRec
    norm_num
    rw [List.dedup_eq_self.mpr (by decide)]
    norm_num

/- ═══════════════ C5: invalid difficulty handling ═══════════════ -/

/-- C5 (counterexample).  For the invalid difficulty string "expert" the
generators do not fail: they return an ordinary puzzle, silently defaulting to
the arithmetic family with easy parameter ranges (sequence 1,3,5,7,9 under the
constant-zero hash) and to blank count 3. -/
theorem c5_counterexample :
    (generateSequencePuzzle h0 "2024-01-01" "expert").patternKey = "arithmetic" ∧
    (generateSequencePuzzle h0 "2024-01-01" "expert").sequence = [1, 3, 5, 7, 9] ∧
    (generateSequencePuzzle h0 "2024-01-01" "expert").answer = 11 ∧
    (generateMatrixPuzzle h0 "2024-01-01" "expert").grid.length = 16 ∧
    countBlanksOut (generateMatrixPuzzle h0 "2024-01-01" "expert").grid = 3 := by
  decide

/-- C5 (amended).  For every difficulty value outside the enum, the generators
silently default instead of failing: `generateSequencePuzzle` falls back to the
arithmetic family with the easy parameter ranges, and `generateMatrixPuzzle`
falls back to the arithmetic grid with blank count 3. -/
theorem c5_invalid_difficulty_silently_defaults (h : String → ℕ)
    (date difficulty : String) (h1 : difficulty ≠ "easy")
    (h2 : difficulty ≠ "medium") (h3 : difficulty ≠ "hard") :
    generateSequencePuzzle h date difficulty =
      { type := "sequence"
        sequence := (genArithmetic h date "easy").sequence
        answer := (genArithmetic h date "easy").answer
        hint := (genArithmetic h date "easy").hint
        patternKey := "arithmetic"
        difficulty := difficulty
        date := date } ∧
    generateMatrixPuzzle h date difficulty =
      { type := "matrix"
        grid := blankCells h (buildArithmeticGrid h date).grid 3 date
        solution := (buildArithmeticGrid h date).grid
        hint := (buildArithmeticGrid h date).hint
        patternKey := "arithmetic"
        difficulty := difficulty
        date := date } := by
  have hp : pickSequencePattern h date difficulty = "arithmetic" := by
    unfold pickSequencePattern seqPatternTable
    rw [if_neg h1, if_neg h2, if_neg h3]
    rfl
  have hga : genArithmetic h date difficulty = genArithmetic h date "easy" := by
    unfold genArithmetic
    have : arithRanges difficulty = arithRanges "easy" := by
      unfold arithRanges
      rw [if_neg h1, if_neg h2, if_neg h3, if_pos rfl]
    rw [this]
  have hmp : pickMatrixPattern h date difficulty = "arithmetic" := by
    unfold pickMatrixPattern matPatternTable
    rw [if_neg h1, if_neg h2, if_neg h3]
    simp
  have hbc : blankCountFor difficulty = 3 := by
    unfold blankCountFor
    rw [if_neg h1, if_neg h2, if_neg h3]
  constructor
  · unfold generateSequencePuzzle
    rw [hp, hga]
    rfl
  · unfold generateMatrixPuzzle
    rw [hmp, hbc]
    rfl

theorem c5_witness :
    generateSequencePuzzle h0 "2024-01-01" "expert2" =
      { type := "sequence"
        sequence := (genArithmetic h0 "2024-01-01" "easy").sequence
        answer := (genArithmetic h0 "2024-01-01" "easy").answer
        hint := (genArithmetic h0 "2024-01-01" "easy").hint
        patternKey := "arithmetic"
        difficulty := "expert2"
        date := "2024-01-01" } ∧
    generateMatrixPuzzle h0 "2024-01-01" "expert2" =
      { type := "matrix"
        grid := blankCells h0 (buildArithmeticGrid h0 "2024-01-01").grid 3 "2024-01-01"
        solution := (buildArithmeticGrid h0 "2024-01-01").grid
        hint := (buildArithmeticGrid h0 "2024-01-01").hint
        patternKey := "arithmetic"
        difficulty := "expert2"
        date := "2024-01-01" } :=
  c5_invalid_difficulty_silently_defaults h0 "2024-01-01" "expert2"
    (by decide) (by decide) (by decide)

/- ═══════════════ C6: rolling average ═══════════════ -/

/-- C6 (counterexample).  On the ten scores 1,0,…,0 the seventh rolling value
is the integer 0, while the exact mean of the trailing seven scores is 1/7,
which is not 0: the code rounds, so "equals the exact arithmetic mean" fails. -/
theorem c6_counterexample :
    (rollingAverage c6Values 7).getD 6 none = some 0 ∧
    ¬ (((((c6Values.drop (6 - 6)).take 7).map fun v => (v : ℚ)).sum) / 7
      = ((0 : ℤ) : ℚ)) := by
  constructor
  · unfold rollingAverage
    rw [List.getD_eq_getElem?_getD, List.getElem?_map,
      List.getElem?_range (by decide : (6 : ℕ) < c6Values.length)]
    rw [Option.map_some', Option.getD_some, if_neg (by omega)]
    have hs : ((((c6Values.drop (6 + 1 - 7)).take 7).map fun v => (v : ℚ)).sum)
        = 1 := by
      norm_num [c6Values]
    rw [hs]
    have : round ((1 : ℚ) / ((7 : ℕ) : ℚ)) = 0 := by
      norm_num [round_eq, Int.floor_eq_iff]
    rw [this]
  · norm_num [c6Values]

/-- C6 (amended).  `rollingAvg` is absent at every position before the 7th,
and at every later position equals the mean of the 7 trailing scores rounded
to the nearest integer (`Math.round`), not the exact mean. -/
theorem c6_rolling_average_rounded (values : List ℤ) (i : ℕ)
    (hi : i < values.length) :
    (i < 6 → (rollingAverage values 7).getD i none = none) ∧
    (6 ≤ i → (rollingAverage values 7).getD i none =
      some (round (((((values.drop (i - 6)).take 7).map fun v => (v : ℚ)).sum) /
        ((7 : ℕ) : ℚ)))) := by
  have hbase : (rollingAverage values 7).getD i none =
      if i < 7 - 1 then none
      else some (round (((((values.drop (i + 1 - 7)).take 7).map
        fun v => (v : ℚ)).sum) / ((7 : ℕ) : ℚ))) := by
    unfold rollingAverage
    rw [List.getD_eq_getElem?_getD, List.getElem?_map, List.getElem?_range hi]
    rfl
  constructor
  · intro h6
    rw [hbase, if_pos (by omega)]
  · intro h6
    rw [hbase, if_neg (by omega)]
    have : i + 1 - 7 = i - 6 := by omega
    rw [this]

theorem c6_witness :
    ((2 : ℕ) < 6 → (rollingAverage c6Values 7).getD 2 none = none) ∧
    (6 ≤ (2 : ℕ) → (rollingAverage c6Values 7).getD 2 none =
      some (round (((((c6Values.drop (2 - 6)).take 7).map fun v => (v : ℚ)).sum) /
        ((7 : ℕ) : ℚ)))) :=
  c6_rolling_average_rounded c6Values 2 (by decide)

/- ═══════════════ C3: performance score ═══════════════ -/

theorem solveRateScore_bounds (w : List ActivityRec) :
    0 ≤ solveRateScore w ∧ solveRateScore w ≤ 40 := by
  unfold solveRateScore
  have h0q : (0 : ℚ) ≤ (((w.filter fun a => a.solved).length : ℚ) / (w.length : ℚ)) :=
    div_nonneg (by positivity) (by positivity)
  have h1q : (((w.filter fun a => a.solved).length : ℚ) / (w.length : ℚ)) ≤ 1 := by
    rcases Nat.eq_zero_or_pos w.length with hz | hpos
    · rw [hz]; norm_num
    · rw [div_le_one (by exact_mod_cast hpos)]
      exact_mod_cast List.length_filter_le _ w
  constructor
  · exact round_nonneg_of (by nlinarith)
  · exact round_le_int 40 (by nlinarith)

theorem expectedSolveTime_pos (d : String) : 0 < expectedSolveTime d := by
  unfold expectedSolveTime
  split_ifs <;> norm_num

theorem computeSpeedScore_bounds (solved : List ActivityRec) (d : String) :
    0 ≤ computeSpeedScore solved d ∧ computeSpeedScore solved d ≤ 40 := by
  unfold computeSpeedScore
  split_ifs with hz hfast hslow
  · norm_num
  · norm_num
  · norm_num
  · have he := expectedSolveTime_pos d
    have hlt : expectedSolveTime d < avgSolveTime solved := lt_of_not_le hfast
    have hlt2 : avgSolveTime solved < expectedSolveTime d * 2 := lt_of_not_le hslow
    have hfrac0 : (0 : ℚ) ≤ (expectedSolveTime d * 2 - avgSolveTime solved) /
        expectedSolveTime d := div_nonneg (by linarith) (le_of_lt he)
    have hle : (expectedSolveTime d * 2 - avgSolveTime solved) /
        expectedSolveTime d ≤ 1 := by
      rw [div_le_one he]; linarith
    constructor
    · exact round_nonneg_of (by nlinarith)
    · exact round_le_int 40 (by nlinarith)

theorem cleanSolveScore_bounds (w : List ActivityRec) :
    0 ≤ cleanSolveScore w ∧ cleanSolveScore w ≤ 20 := by
  unfold cleanSolveScore
  split_ifs with hpos
  · have h0q : (0 : ℚ) ≤ ((((w.filter fun a => a.solved).filter
        fun a => a.attempts.getD 1 ≤ 1).length : ℚ) /
        (((w.filter fun a => a.solved).length : ℚ))) :=
      div_nonneg (by positivity) (by positivity)
    have h1q : ((((w.filter fun a => a.solved).filter
        fun a => a.attempts.getD 1 ≤ 1).length : ℚ) /
        (((w.filter fun a => a.solved).length : ℚ))) ≤ 1 := by
      rw [div_le_one (by exact_mod_cast hpos)]
      exact_mod_cast List.length_filter_le _ _
    constructor
    · exact round_nonneg_of (by nlinarith)
    · exact round_le_int 20 (by nlinarith)
  · norm_num

/-- C3.  Over any non-empty activity window — any combination of solved flags,
attempts, times and difficulty tiers — the performance score is the sum of the
three rounded components, and lies in [0, 100]. -/
theorem c3_performance_score_bounds (w : List ActivityRec) (hw : w ≠ []) :
    performanceScore w =
      solveRateScore w + speedScoreOfWindow w + cleanSolveScore w ∧
    0 ≤ performanceScore w ∧ performanceScore w ≤ 100 := by
  have hs1 := solveRateScore_bounds w
  have hs2 := computeSpeedScore_bounds (w.filter fun a => a.solved)
    (getDominantDifficulty (w.filter fun a => a.solved))
  have hs3 := cleanSolveScore_bounds w
  have heq : performanceScore w =
      solveRateScore w + speedScoreOfWindow w + cleanSolveScore w := by
    unfold performanceScore
    rw [if_neg hw]
  refine ⟨heq, ?_, ?_⟩
  · rw [heq]; unfold speedScoreOfWindow; omega
  · rw [heq]; unfold speedScoreOfWindow; omega

theorem c3_witness :
    performanceScore [mkRec "2024-01-01" true] =
      solveRateScore [mkRec "2024-01-01" true] +
        speedScoreOfWindow [mkRec "2024-01-01" true] +
        cleanSolveScore [mkRec "2024-01-01" true] ∧
    0 ≤ performanceScore [mkRec "2024-01-01" true] ∧
    performanceScore [mkRec "2024-01-01" true] ≤ 100 :=
  c3_performance_score_bounds [mkRec "2024-01-01" true] (by decide)

/- ═══════════════ C1 / C10: blankCells machinery ═══════════════ -/

theorem blankInv_nil (count : ℕ) : BlankInv count [] := by
  refine ⟨by simp, List.nodup_nil, by simp, ?_, ?_⟩ <;> decide

theorem blankInv_step (count : ℕ) (b : List ℕ) (idx : ℕ) (hb : BlankInv count b) :
    BlankInv count (blankStep count b idx) := by
  obtain ⟨hlen, hnd, hmem16, hrow, hcol⟩ := hb
  unfold blankStep
  split_ifs with hstop hvis hdup
  · exact ⟨hlen, hnd, hmem16, hrow, hcol⟩
  · exact ⟨hlen, hnd, hmem16, hrow, hcol⟩
  · obtain ⟨hvr, hvc⟩ := hvis
    have hidx16 : idx < 16 := by
      by_contra h16
      push_neg at h16
      have hz : visibleInRow b idx = 0 := by
        unfold visibleInRow
        rw [List.length_eq_zero, List.filter_eq_nil_iff]
        intro j hj
        rw [List.mem_range] at hj
        simp only [decide_eq_true_eq, not_and]
        intro hj4
        omega
      omega
    refine ⟨?_, ?_, ?_, ?_, ?_⟩
    · simp only [List.length_cons]
      omega
    · exact List.nodup_cons.mpr ⟨hdup, hnd⟩
    · intro i hi
      rcases List.mem_cons.mp hi with hie | hib
      · omega
      · exact hmem16 i hib
    · intro r hr
      by_cases heq : idx / 4 = r
      · subst heq
        have hfe : ((List.range 16).filter fun j => j / 4 = idx / 4 ∧ j ∉ idx :: b) =
            ((List.range 16).filter fun j => j / 4 = idx / 4 ∧ j ≠ idx ∧ j ∉ b) := by
          apply List.filter_congr
          intro j hj
          apply decide_eq_decide.mpr
          simp only [List.mem_cons, not_or]
        rw [hfe]
        exact hvr
      · have hfe : ((List.range 16).filter fun j => j / 4 = r ∧ j ∉ idx :: b) =
            ((List.range 16).filter fun j => j / 4 = r ∧ j ∉ b) := by
          apply List.filter_congr
          intro j hj
          apply decide_eq_decide.mpr
          simp only [List.mem_cons, not_or]
          constructor
          · rintro ⟨h1, _, h3⟩
            exact ⟨h1, h3⟩
          · rintro ⟨h1, h3⟩
            exact ⟨h1, fun hji => heq (hji ▸ h1), h3⟩
        rw [hfe]
        exact hrow r hr
    · intro c hc
      by_cases heq : idx % 4 = c
      · subst heq
        have hfe : ((List.range 16).filter fun j => j % 4 = idx % 4 ∧ j ∉ idx :: b) =
            ((List.range 16).filter fun j => j % 4 = idx % 4 ∧ j ≠ idx ∧ j ∉ b) := by
          apply List.filter_congr
          intro j hj
          apply decide_eq_decide.mpr
          simp only [List.mem_cons, not_or]
        rw [hfe]
        exact hvc
      · have hfe : ((List.range 16).filter fun j => j % 4 = c ∧ j ∉ idx :: b) =
            ((List.range 16).filter fun j => j % 4 = c ∧ j ∉ b) := by
          apply List.filter_congr
          intro j hj
          apply decide_eq_decide.mpr
          simp only [List.mem_cons, not_or]
          constructor
          · rintro ⟨h1, _, h3⟩
            exact ⟨h1, h3⟩
          · rintro ⟨h1, h3⟩
            exact ⟨h1, fun hji => heq (hji ▸ h1), h3⟩
        rw [hfe]
        exact hcol c hc
  · exact ⟨hlen, hnd, hmem16, hrow, hcol⟩

theorem blankInv_foldl (count : ℕ) (cs : List ℕ) (b : List ℕ)
    (hb : BlankInv count b) : BlankInv count (cs.foldl (blankStep count) b) := by
  induction cs generalizing b with
  | nil => simpa using hb
  | cons c cs ih => exact ih _ (blankInv_step count b c hb)

theorem blanked_inv (h : String → ℕ) (date : String) (count : ℕ) :
    BlankInv count ((shuffledIndices h date).foldl (blankStep count) []) :=
  blankInv_foldl count _ _ (blankInv_nil count)

theorem foldr_max_le (b : List ℕ) (hb : ∀ i ∈ b, i < 16) :
    b.foldr (fun i m => max (i + 1) m) 0 ≤ 16 := by
  induction b with
  | nil => simp
  | cons x xs ih =>
    simp only [List.foldr_cons]
    have hx : x < 16 := hb x (List.mem_cons_self x xs)
    have hxs := ih fun i hi => hb i (List.mem_cons_of_mem x hi)
    omega

theorem applyBlanks_length (fg : List ℤ) (b : List ℕ) (hb : ∀ i ∈ b, i < 16)
    (hlen : 16 ≤ fg.length) : (applyBlanks fg b).length = fg.length := by
  unfold applyBlanks
  rw [List.length_map, List.length_range]
  have := foldr_max_le b hb
  omega

theorem applyBlanks_getD (fg : List ℤ) (b : List ℕ) (i : ℕ) (hi : i < fg.length) :
    (applyBlanks fg b).getD i none = if i ∈ b then none else fg[i]? := by
  unfold applyBlanks
  have hi2 : i < max fg.length (b.foldr (fun i m => max (i + 1) m) 0) :=
    lt_of_lt_of_le hi (le_max_left _ _)
  rw [List.getD_eq_getElem?_getD, List.getElem?_map, List.getElem?_range hi2,
    Option.map_some', Option.getD_some]

theorem countBlanks_le (fg : List ℤ) (b : List ℕ) (hnd : b.Nodup)
    (hb : ∀ i ∈ b, i < 16) (hlen : 16 ≤ fg.length) :
    countBlanksOut (applyBlanks fg b) ≤ b.length := by
  unfold countBlanksOut applyBlanks
  have hn : max fg.length (b.foldr (fun i m => max (i + 1) m) 0) = fg.length := by
    have := foldr_max_le b hb
    omega
  rw [hn, ← List.countP_eq_length_filter, List.countP_map,
    List.countP_eq_length_filter]
  have hfeq : (List.range fg.length).filter
      ((fun c => decide (c = none)) ∘ fun i => if i ∈ b then none else fg[i]?) =
      (List.range fg.length).filter fun i => decide (i ∈ b) := by
    apply List.filter_congr
    intro i hi
    rw [List.mem_range] at hi
    simp only [Function.comp]
    by_cases hib : i ∈ b
    · simp [hib]
    · simp [hib, List.getElem?_eq_getElem hi]
  rw [hfeq]
  have hnd2 : ((List.range fg.length).filter fun i => decide (i ∈ b)).Nodup :=
    (List.nodup_range _).filter _
  have hsub : ((List.range fg.length).filter fun i => decide (i ∈ b)).toFinset ⊆
      b.toFinset := by
    intro x hx
    rw [List.mem_toFinset] at hx
    rw [List.mem_toFinset]
    have := List.of_mem_filter hx
    simpa using this
  calc ((List.range fg.length).filter fun i => decide (i ∈ b)).length
      = ((List.range fg.length).filter fun i => decide (i ∈ b)).toFinset.card :=
        (List.toFinset_card_of_nodup hnd2).symm
    _ ≤ b.toFinset.card := Finset.card_le_card hsub
    _ ≤ b.length := List.toFinset_card_le b

theorem blankCells_getD (h : String → ℕ) (fg : List ℤ) (count : ℕ) (date : String)
    (i : ℕ) (hi : i < fg.length) :
    (blankCells h fg count date).getD i none =
      if i ∈ (shuffledIndices h date).foldl (blankStep count) [] then none
      else fg[i]? := by
  unfold blankCells
  exact applyBlanks_getD fg _ i hi

theorem blankCells_mem_iff_none (h : String → ℕ) (fg : List ℤ) (count : ℕ)
    (date : String) (i : ℕ) (hi : i < fg.length) :
    ((blankCells h fg count date).getD i none = none ↔
      i ∈ (shuffledIndices h date).foldl (blankStep count) []) := by
  rw [blankCells_getD h fg count date i hi]
  by_cases hib : i ∈ (shuffledIndices h date).foldl (blankStep count) []
  · simp [hib]
  · simp [hib, List.getElem?_eq_getElem hi]

/-- C10 (counterexample).  On the empty input grid with count 1, `blankCells`
returns a 1-element array (JS index assignment past the end extends the
array), so the output length differs from the input length 0. -/
theorem c10_counterexample :
    (blankCells h0 [] 1 "2024-01-01").length = 1 ∧ ([] : List ℤ).length = 0 := by
  constructor
  · decide
  · rfl

/-- C10 (amended).  For every input grid of at least 16 cells, every count and
every date, `blankCells` returns an array of the same length in which every
non-null entry equals the input entry at the same index and at most `count`
entries are null: cells are only removed, never altered or reordered. -/
theorem c10_blank_cells_frame (h : String → ℕ) (fg : List ℤ) (count : ℕ)
    (date : String) (hlen : 16 ≤ fg.length) :
    (blankCells h fg count date).length = fg.length ∧
    countBlanksOut (blankCells h fg count date) ≤ count ∧
    ∀ i < fg.length, ∀ v : ℤ,
      (blankCells h fg count date).getD i none = some v → fg[i]? = some v := by
  obtain ⟨hbcount, hbnd, hbmem, hbrow, hbcol⟩ := blanked_inv h date count
  refine ⟨?_, ?_, ?_⟩
  · unfold blankCells
    exact applyBlanks_length fg _ hbmem hlen
  · unfold blankCells
    exact le_trans (countBlanks_le fg _ hbnd hbmem hlen) hbcount
  · intro i hi v hv
    rw [blankCells_getD h fg count date i hi] at hv
    by_cases hib : i ∈ (shuffledIndices h date).foldl (blankStep count) []
    · rw [if_pos hib] at hv
      exact absurd hv (by simp)
    · rw [if_neg hib] at hv
      exact hv

theorem c10_witness :
    (blankCells h0 c10Grid 5 "2024-01-01").length = c10Grid.length ∧
    countBlanksOut (blankCells h0 c10Grid 5 "2024-01-01") ≤ 5 ∧
    ∀ i < c10Grid.length, ∀ v : ℤ,
      (blankCells h0 c10Grid 5 "2024-01-01").getD i none = some v →
        c10Grid[i]? = some v :=
  c10_blank_cells_frame h0 c10Grid 5 "2024-01-01" (by decide)

theorem generateMatrixPuzzle_grid (h : String → ℕ) (date difficulty : String) :
    ∃ G : List ℤ, G.length = 16 ∧
      (generateMatrixPuzzle h date difficulty).grid =
        blankCells h G (blankCountFor difficulty) date := by
  unfold generateMatrixPuzzle
  refine ⟨_, ?_, rfl⟩
  split_ifs <;>
    simp [buildMultiplicationGrid, buildPolynomialGrid, buildArithmeticGrid,
      buildGrid16]

/-- C1.  For every hash function, date and difficulty in the enum, the matrix
puzzle grid has at most `blankCount` null cells (3 easy, 5 medium, 7 hard),
and every blanked cell keeps at least 2 other visible cells in its row and at
least 2 in its column of the 4×4 grid. -/
theorem c1_matrix_redaction_invariant (h : String → ℕ) (date difficulty : String)
    (hd : difficulty = "easy" ∨ difficulty = "medium" ∨ difficulty = "hard") :
    countBlanksOut (generateMatrixPuzzle h date difficulty).grid ≤
      blankCountFor difficulty ∧
    ∀ i < 16, (generateMatrixPuzzle h date difficulty).grid.getD i none = none →
      2 ≤ visibleInRowOut (generateMatrixPuzzle h date difficulty).grid i ∧
      2 ≤ visibleInColOut (generateMatrixPuzzle h date difficulty).grid i := by
  obtain ⟨G, hG16, hgrid⟩ := generateMatrixPuzzle_grid h date difficulty
  obtain ⟨hbcount, hbnd, hbmem, hbrow, hbcol⟩ :=
    blanked_inv h date (blankCountFor difficulty)
  have hGlen : 16 ≤ G.length := le_of_eq hG16.symm
  rw [hgrid]
  constructor
  · unfold blankCells
    exact le_trans (countBlanks_le G _ hbnd hbmem hGlen) hbcount
  · intro i hi16 hnone
    have hiG : i < G.length := by omega
    have hiB : i ∈ (shuffledIndices h date).foldl
        (blankStep (blankCountFor difficulty)) [] :=
      (blankCells_mem_iff_none h G (blankCountFor difficulty) date i hiG).mp hnone
    have hmem : ∀ j, j < 16 →
        ((blankCells h G (blankCountFor difficulty) date).getD j none ≠ none ↔
          j ∉ (shuffledIndices h date).foldl
            (blankStep (blankCountFor difficulty)) []) := by
      intro j hj
      have := blankCells_mem_iff_none h G (blankCountFor difficulty) date j (by omega)
      constructor
      · intro hne hjb
        exact hne (this.mpr hjb)
      · intro hnb hcon
        exact hnb (this.mp hcon)
    constructor
    · unfold visibleInRowOut
      have hfe : ((List.range 16).filter fun j => j / 4 = i / 4 ∧ j ≠ i ∧
          (blankCells h G (blankCountFor difficulty) date).getD j none ≠ none) =
          ((List.range 16).filter fun j => j / 4 = i / 4 ∧ j ∉
            (shuffledIndices h date).foldl (blankStep (blankCountFor difficulty)) []) := by
        apply List.filter_congr
        intro j hj
        rw [List.mem_range] at hj
        apply decide_eq_decide.mpr
        constructor
        · rintro ⟨h1, _, h3⟩
          exact ⟨h1, (hmem j hj).mp h3⟩
        · rintro ⟨h1, h2⟩
          exact ⟨h1, fun hji => h2 (hji ▸ hiB), (hmem j hj).mpr h2⟩
      rw [hfe]
      exact hbrow (i / 4) (by omega)
    · unfold visibleInColOut
      have hfe : ((List.range 16).filter fun j => j % 4 = i % 4 ∧ j ≠ i ∧
          (blankCells h G (blankCountFor difficulty) date).getD j none ≠ none) =
          ((List.range 16).filter fun j => j % 4 = i % 4 ∧ j ∉
            (shuffledIndices h date).foldl (blankStep (blankCountFor difficulty)) []) := by
        apply List.filter_congr
        intro j hj
        rw [List.mem_range] at hj
        apply decide_eq_decide.mpr
        constructor
        · rintro ⟨h1, _, h3⟩
          exact ⟨h1, (hmem j hj).mp h3⟩
        · rintro ⟨h1, h2⟩
          exact ⟨h1, fun hji => h2 (hji ▸ hiB), (hmem j hj).mpr h2⟩
      rw [hfe]
      exact hbcol (i % 4) (by omega)

theorem c1_witness :
    countBlanksOut (generateMatrixPuzzle h0 "2024-01-01" "easy").grid ≤
      blankCountFor "easy" ∧
    ∀ i < 16, (generateMatrixPuzzle h0 "2024-01-01" "easy").grid.getD i none = none →
      2 ≤ visibleInRowOut (generateMatrixPuzzle h0 "2024-01-01" "easy").grid i ∧
      2 ≤ visibleInColOut (generateMatrixPuzzle h0 "2024-01-01" "easy").grid i :=
  c1_matrix_redaction_invariant h0 "2024-01-01" "easy" (Or.inl rfl)

/- ═══════════════ C7 / C9: streak machinery ═══════════════ -/

theorem walkBack_mem (s : List ℤ) :
    ∀ (fuel : ℕ) (c : ℤ), ∀ j < walkBack s c fuel, c - (j : ℤ) ∈ s := by
  intro fuel
  induction fuel with
  | zero => intro c j hj; simp [walkBack] at hj
  | succ fuel ih =>
    intro c j hj
    by_cases hc : c ∈ s
    · rw [walkBack, if_pos hc] at hj
      rcases j with _ | j
      · simpa using hc
      · have := ih (c - 1) j (by omega)
        have hcast : c - ((j + 1 : ℕ) : ℤ) = c - 1 - (j : ℤ) := by push_cast; ring
        rw [hcast]
        exact this
    · rw [walkBack, if_neg hc] at hj
      omega

theorem walkBack_le (s : List ℤ) : ∀ (fuel : ℕ) (c : ℤ), walkBack s c fuel ≤ fuel := by
  intro fuel
  induction fuel with
  | zero => intro c; simp [walkBack]
  | succ fuel ih =>
    intro c
    rw [walkBack]
    split_ifs with hc
    · have := ih (c - 1)
      omega
    · omega

theorem walkBack_stop_lt (s : List ℤ) :
    ∀ (fuel : ℕ) (c : ℤ), walkBack s c fuel < fuel →
      c - (walkBack s c fuel : ℤ) ∉ s := by
  intro fuel
  induction fuel with
  | zero => intro c hlt; omega
  | succ fuel ih =>
    intro c hlt
    by_cases hc : c ∈ s
    · rw [walkBack, if_pos hc] at hlt ⊢
      have := ih (c - 1) (by omega)
      have hcast : c - ((walkBack s (c - 1) fuel + 1 : ℕ) : ℤ) =
          c - 1 - (walkBack s (c - 1) fuel : ℤ) := by push_cast; ring
      rw [hcast]
      exact this
    · rw [walkBack, if_neg hc]
      simpa using hc

theorem walkBack_full_stop (s : List ℤ) (c : ℤ)
    (hfull : walkBack s c s.length = s.length) : c - (s.length : ℤ) ∉ s := by
  intro hmem
  have hmemall : ∀ j < s.length, c - (j : ℤ) ∈ s := by
    intro j hj
    exact walkBack_mem s s.length c j (by omega)
  have hinj : Function.Injective fun j : ℕ => c - (j : ℤ) := by
    intro a b hab
    simp only at hab
    omega
  have hTcard : ((Finset.range s.length).image fun j : ℕ => c - (j : ℤ)).card =
      s.length := by
    rw [Finset.card_image_of_injective _ hinj, Finset.card_range]
  have hTsub : ((Finset.range s.length).image fun j : ℕ => c - (j : ℤ)) ⊆
      s.toFinset := by
    intro x hx
    rw [Finset.mem_image] at hx
    obtain ⟨j, hj, rfl⟩ := hx
    rw [Finset.mem_range] at hj
    rw [List.mem_toFinset]
    exact hmemall j hj
  have hTeq : ((Finset.range s.length).image fun j : ℕ => c - (j : ℤ)) =
      s.toFinset :=
    Finset.eq_of_subset_of_card_le hTsub (by
      have := List.toFinset_card_le s
      omega)
  have hcin : c - (s.length : ℤ) ∈
      ((Finset.range s.length).image fun j : ℕ => c - (j : ℤ)) := by
    rw [hTeq, List.mem_toFinset]
    exact hmem
  rw [Finset.mem_image] at hcin
  obtain ⟨j, hj, hje⟩ := hcin
  rw [Finset.mem_range] at hj
  omega

theorem walkBack_spec (s : List ℤ) (c : ℤ) :
    (∀ j < walkBack s c s.length, c - (j : ℤ) ∈ s) ∧
      c - (walkBack s c s.length : ℤ) ∉ s := by
  refine ⟨fun j hj => walkBack_mem s s.length c j hj, ?_⟩
  rcases lt_or_eq_of_le (walkBack_le s s.length c) with hlt | heq
  · exact walkBack_stop_lt s s.length c hlt
  · rw [heq]
    exact walkBack_full_stop s c heq

theorem buildStreaks_currentStreak (today : ℤ) (s : List ℤ) (hne : s ≠ []) :
    (buildStreaks today s).currentStreak =
      if today ∈ s then walkBack s today s.length
      else if today - 1 ∈ s then walkBack s (today - 1) s.length
      else 0 := by
  unfold buildStreaks
  rw [if_neg hne]

theorem buildStreaks_longestStreak (today : ℤ) (s : List ℤ) (hne : s ≠ []) :
    (buildStreaks today s).longestStreak = longestPass s := by
  unfold buildStreaks
  rw [if_neg hne]

/-- C7.  `currentStreak` counts exactly the consecutive solved days ending at
today (or at yesterday when today is unsolved): every counted day is solved,
the day before the counted run is not, the streak is 0 when neither today nor
yesterday is solved, and the two concrete scenarios of the spec hold:
solved days D-2, D-1, D give 3, solved days D-3, D-2 give 0. -/
theorem c7_current_streak (today : ℤ) (solvedDates : List ℤ) :
    ((today ∈ solvedDates ∨ today - 1 ∈ solvedDates) →
      (∀ j < (buildStreaks today solvedDates).currentStreak,
        (if today ∈ solvedDates then today else today - 1) - (j : ℤ) ∈ solvedDates) ∧
      (if today ∈ solvedDates then today else today - 1) -
        ((buildStreaks today solvedDates).currentStreak : ℤ) ∉ solvedDates) ∧
    (today ∉ solvedDates → today - 1 ∉ solvedDates →
      (buildStreaks today solvedDates).currentStreak = 0) ∧
    (buildStreaks today [today - 2, today - 1, today]).currentStreak = 3 ∧
    (buildStreaks today [today - 3, today - 2]).currentStreak = 0 := by
  refine ⟨?_, ?_, ?_, ?_⟩
  · intro halive
    have hne : solvedDates ≠ [] := by
      intro hnil
      subst hnil
      rcases halive with hmem | hmem <;> simp at hmem
    rw [buildStreaks_currentStreak today solvedDates hne]
    by_cases ht : today ∈ solvedDates
    · rw [if_pos ht, if_pos ht]
      exact walkBack_spec solvedDates today
    · have hy : today - 1 ∈ solvedDates := halive.resolve_left ht
      rw [if_neg ht, if_neg ht, if_pos hy]
      exact walkBack_spec solvedDates (today - 1)
  · intro h1 h2
    by_cases hne : solvedDates = []
    · subst hne
      simp [buildStreaks]
    · rw [buildStreaks_currentStreak today solvedDates hne, if_neg h1, if_neg h2]
  · have hne : ([today - 2, today - 1, today] : List ℤ) ≠ [] := by simp
    rw [buildStreaks_currentStreak _ _ hne]
    have ht : today ∈ [today - 2, today - 1, today] := by simp
    rw [if_pos ht]
    have hspec := (walkBack_spec [today - 2, today - 1, today] today).2
    have hle := walkBack_le [today - 2, today - 1, today]
      ([today - 2, today - 1, today].length) today
    by_contra hn
    apply hspec
    simp only [List.length_cons, List.length_nil, List.mem_cons,
      List.not_mem_nil, or_false] at hle hn ⊢
    omega
  · have hne : ([today - 3, today - 2] : List ℤ) ≠ [] := by simp
    rw [buildStreaks_currentStreak _ _ hne]
    have h1 : today ∉ [today - 3, today - 2] := by
      simp only [List.mem_cons, List.not_mem_nil, or_false]
      omega
    have h2 : today - 1 ∉ [today - 3, today - 2] := by
      simp only [List.mem_cons, List.not_mem_nil, or_false]
      omega
    rw [if_neg h1, if_neg h2]

theorem c7_witness :
    (((100 : ℤ) ∈ [98, 99, 100] ∨ (100 : ℤ) - 1 ∈ [98, 99, 100]) →
      (∀ j < (buildStreaks 100 [98, 99, 100]).currentStreak,
        (if (100 : ℤ) ∈ [98, 99, 100] then (100 : ℤ) else 100 - 1) - (j : ℤ) ∈
          [98, 99, 100]) ∧
      (if (100 : ℤ) ∈ [98, 99, 100] then (100 : ℤ) else 100 - 1) -
        ((buildStreaks 100 [98, 99, 100]).currentStreak : ℤ) ∉ [98, 99, 100]) ∧
    ((100 : ℤ) ∉ [98, 99, 100] → (100 : ℤ) - 1 ∉ [98, 99, 100] →
      (buildStreaks 100 [98, 99, 100]).currentStreak = 0) ∧
    (buildStreaks 100 [100 - 2, 100 - 1, 100]).currentStreak = 3 ∧
    (buildStreaks 100 [100 - 3, 100 - 2]).currentStreak = 0 :=
  c7_current_streak 100 [98, 99, 100]

theorem longestGo_ge (rest : List ℤ) :
    ∀ (prev : ℤ) (run longest : ℕ), longest ≤ longestGo prev run longest rest := by
  induction rest with
  | nil => intro prev run longest; exact le_refl _
  | cons d rest ih =>
    intro prev run longest
    have h1 : longest ≤ max longest (if d - prev = 1 then run + 1 else 1) :=
      le_max_left _ _
    exact le_trans h1 (ih d _ _)

theorem longestGo_block (rest : List ℤ) :
    ∀ (prev : ℤ) (run longest : ℕ), List.Sorted (· < ·) (prev :: rest) →
      run ≤ longest → 1 ≤ run →
      ((∀ (a : ℤ) (k : ℕ), blockIn (prev :: rest) a k → prev < a →
        k ≤ longestGo prev run longest rest) ∧
      (∀ m : ℕ, blockIn (prev :: rest) prev (m + 1) →
        run + m ≤ longestGo prev run longest rest)) := by
  induction rest with
  | nil =>
    intro prev run longest hsort hrl hr1
    constructor
    · intro a k hblk hlt
      rcases k with _ | k
      · exact Nat.zero_le _
      · have ha := hblk 0 (by omega)
        simp only [Nat.cast_zero, add_zero, List.mem_singleton] at ha
        omega
    · intro m hblk
      rcases m with _ | m
      · simpa [longestGo] using hrl
      · have h1 := hblk 1 (by omega)
        simp only [Nat.cast_one, List.mem_singleton] at h1
        omega
  | cons x rest ih =>
    intro prev run longest hsort hrl hr1
    have hsc := List.sorted_cons.mp hsort
    have hpx : prev < x := hsc.1 x (by simp)
    have hsort2 : List.Sorted (· < ·) (x :: rest) := hsc.2
    have hsc2 := List.sorted_cons.mp hsort2
    have hgo : longestGo prev run longest (x :: rest) =
        longestGo x (if x - prev = 1 then run + 1 else 1)
          (max longest (if x - prev = 1 then run + 1 else 1)) rest := rfl
    have hr1n : 1 ≤ (if x - prev = 1 then run + 1 else 1) := by
      split_ifs <;> omega
    have hrln : (if x - prev = 1 then run + 1 else 1) ≤
        max longest (if x - prev = 1 then run + 1 else 1) := le_max_right _ _
    have ihx := ih x (if x - prev = 1 then run + 1 else 1)
      (max longest (if x - prev = 1 then run + 1 else 1)) hsort2 hrln hr1n
    constructor
    · intro a k hblk hlt
      rcases k with _ | k
      · exact Nat.zero_le _
      · have hblk2 : blockIn (x :: rest) a (k + 1) := by
          intro j hj
          have hj2 := hblk j hj
          rcases List.mem_cons.mp hj2 with he | hin
          · exfalso
            have hj0 : (0 : ℤ) ≤ (j : ℤ) := by positivity
            omega
          · exact hin
        have hax : x ≤ a := by
          have h0 := hblk2 0 (by omega)
          simp only [Nat.cast_zero, add_zero] at h0
          rcases List.mem_cons.mp h0 with he | hin
          · omega
          · exact le_of_lt (hsc2.1 a hin)
        rcases eq_or_lt_of_le hax with heq | hlt2
        · subst heq
          have hm := ihx.2 k hblk2
          rw [hgo]
          omega
        · have hm := ihx.1 a (k + 1) hblk2 hlt2
          rw [hgo]
          exact hm
    · intro m hblk
      rcases m with _ | m
      · rw [hgo]
        have hge := longestGo_ge rest x (if x - prev = 1 then run + 1 else 1)
          (max longest (if x - prev = 1 then run + 1 else 1))
        have hml : longest ≤ max longest (if x - prev = 1 then run + 1 else 1) :=
          le_max_left _ _
        omega
      · have hp1 : prev + 1 ∈ prev :: x :: rest := by
          have := hblk 1 (by omega)
          simpa using this
        have hx1 : x = prev + 1 := by
          rcases List.mem_cons.mp hp1 with he | hin
          · omega
          · rcases List.mem_cons.mp hin with he2 | hin2
            · omega
            · have := hsc2.1 (prev + 1) hin2
              omega
        have hrun1 : (if x - prev = 1 then run + 1 else 1) = run + 1 := by
          rw [if_pos (by omega)]
        have hblk2 : blockIn (x :: rest) x (m + 1) := by
          intro j hj
          have hj2 := hblk (j + 1) (by omega)
          have hcast : prev + ((j + 1 : ℕ) : ℤ) = x + (j : ℤ) := by
            push_cast
            omega
          rw [hcast] at hj2
          rcases List.mem_cons.mp hj2 with he | hin
          · exfalso
            have hj0 : (0 : ℤ) ≤ (j : ℤ) := by positivity
            omega
          · exact hin
        have hm := ihx.2 m hblk2
        rw [hgo, hrun1] at *
        omega

theorem longestPass_block (l : List ℤ) (hsort : List.Sorted (· < ·) l)
    (a : ℤ) (k : ℕ) (hblk : blockIn l a k) : k ≤ longestPass l := by
  rcases l with _ | ⟨d, rest⟩
  · rcases k with _ | k
    · exact Nat.zero_le _
    · have := hblk 0 (by omega)
      simp at this
  · rcases k with _ | k
    · exact Nat.zero_le _
    · have ha : a ∈ d :: rest := by
        have := hblk 0 (by omega)
        simpa using this
      have hlg := longestGo_block rest d 1 1 hsort (le_refl 1) (le_refl 1)
      have hda : d ≤ a := by
        rcases List.mem_cons.mp ha with he | hin
        · omega
        · exact le_of_lt ((List.sorted_cons.mp hsort).1 a hin)
      rcases eq_or_lt_of_le hda with heq | hlt
      · subst heq
        have hm := hlg.2 k hblk
        have : longestPass (d :: rest) = longestGo d 1 1 rest := rfl
        omega
      · have hm := hlg.1 a (k + 1) hblk hlt
        have : longestPass (d :: rest) = longestGo d 1 1 rest := rfl
        omega

/-- C9.  For any history with at most one record per calendar date, the run
counted by `currentStreak` is a block of consecutive solved days, so the
forward pass finds a run at least that long: `currentStreak ≤ longestStreak`. -/
theorem c9_longest_ge_current (today : ℤ) (activities : List (ℤ × Bool))
    (hnd : ((activities.filter fun a => a.2).map fun a => a.1).Nodup) :
    (calculateStreaks today activities).currentStreak ≤
      (calculateStreaks today activities).longestStreak := by
  unfold calculateStreaks
  have hperm : (List.insertionSort (· ≤ ·)
      ((activities.filter fun a => a.2).map fun a => a.1)).Perm
      ((activities.filter fun a => a.2).map fun a => a.1) :=
    List.perm_insertionSort _ _
  have hnd2 : (List.insertionSort (· ≤ ·)
      ((activities.filter fun a => a.2).map fun a => a.1)).Nodup :=
    hperm.nodup_iff.mpr hnd
  have hsortle : List.Sorted (· ≤ ·) (List.insertionSort (· ≤ ·)
      ((activities.filter fun a => a.2).map fun a => a.1)) :=
    List.sorted_insertionSort _ _
  have hsort : List.Sorted (· < ·) (List.insertionSort (· ≤ ·)
      ((activities.filter fun a => a.2).map fun a => a.1)) :=
    hsortle.lt_of_le hnd2
  set s := List.insertionSort (· ≤ ·)
    ((activities.filter fun a => a.2).map fun a => a.1) with hs
  by_cases hne : s = []
  · rw [hne]
    simp [buildStreaks]
  · rw [buildStreaks_currentStreak today s hne, buildStreaks_longestStreak today s hne]
    by_cases ht : today ∈ s
    · rw [if_pos ht]
      have hmemall := (walkBack_spec s today).1
      have hblk : blockIn s (today - (walkBack s today s.length : ℤ) + 1)
          (walkBack s today s.length) := by
        intro j hj
        have hmem := hmemall (walkBack s today s.length - 1 - j) (by omega)
        have hcast : today - ((walkBack s today s.length - 1 - j : ℕ) : ℤ) =
            today - (walkBack s today s.length : ℤ) + 1 + (j : ℤ) := by
          omega
        rw [hcast] at hmem
        exact hmem
      exact longestPass_block s hsort _ _ hblk
    · rw [if_neg ht]
      by_cases hy : today - 1 ∈ s
      · rw [if_pos hy]
        have hmemall := (walkBack_spec s (today - 1)).1
        have hblk : blockIn s (today - 1 - (walkBack s (today - 1) s.length : ℤ) + 1)
            (walkBack s (today - 1) s.length) := by
          intro j hj
          have hmem := hmemall (walkBack s (today - 1) s.length - 1 - j) (by omega)
          have hcast : today - 1 - ((walkBack s (today - 1) s.length - 1 - j : ℕ) : ℤ) =
              today - 1 - (walkBack s (today - 1) s.length : ℤ) + 1 + (j : ℤ) := by
            omega
          rw [hcast] at hmem
          exact hmem
        exact longestPass_block s hsort _ _ hblk
      · rw [if_neg hy]
        exact Nat.zero_le _

theorem c9_witness :
    (calculateStreaks 100 [((100 : ℤ), true), ((99 : ℤ), true),
      ((95 : ℤ), false)]).currentStreak ≤
    (calculateStreaks 100 [((100 : ℤ), true), ((99 : ℤ), true),
      ((95 : ℤ), false)]).longestStreak :=
  c9_longest_ge_current 100 [(100, true), (99, true), (95, false)] (by decide)
